import Mathlib

/-!
Shallow embedding of the shopping-cart API core (admins, categories, products
with soft delete, validation and pagination) and proofs about it.

Conventions used throughout:
* timestamps are natural numbers; `Option Nat` is a nullable timestamp,
  `none` standing for SQL NULL;
* an HTTP query-string parameter is an `Option String` (`none` when the
  client did not send it); JavaScript truthiness of such a value is
  captured by `queryTruthy`;
* DECIMAL columns are embedded as integers (the source compares them only
  by order, so any order-embedding is faithful; fractional values can be
  read as fixed-point numbers scaled by 1000).
-/

/-- Truthiness of `const { x = false } = req.query` followed by a boolean
test of `x` in JavaScript: an absent parameter is the literal `false`
(falsy); a present parameter is its raw string, falsy only when empty. -/
def queryTruthy : Option String → Bool
  | none => false
  | some s => !(s = "")

/-- Falsiness of an optional string field of a parsed JSON body, as tested
by `!data.slug` and similar guards in the controllers. -/
def jsFalsy : Option String → Bool
  | none => true
  | some s => s = ""

/-- JavaScript `String.prototype.toLowerCase` restricted to ASCII, used by
the `beforeValidate` hooks (`category.slug.toLowerCase()`). -/
def jsToLower (s : String) : String := String.mk (s.data.map Char.toLower)

/-- The character class removed by the `remove: /[*+~.()'"!:@]/g` option
every controller and model passes to `slugify`. -/
def slugifyRemoveSet : List Char :=
  ['*', '+', '~', '.', '(', ')', Char.ofNat 39, Char.ofNat 34, '!', ':', '@']

/-- Whitespace in the sense of the `\s` class used by the slugify package
(space, tab, newline, carriage return, vertical tab, form feed). -/
def jsWhitespace (c : Char) : Bool :=
  c = ' ' || c = Char.ofNat 9 || c = Char.ofNat 10 || c = Char.ofNat 13 ||
    c = Char.ofNat 11 || c = Char.ofNat 12

/-- ASCII letters and digits, the characters kept by slugify strict mode. -/
def asciiAlphaNum (c : Char) : Bool :=
  (65 ≤ c.toNat && c.toNat ≤ 90) || (97 ≤ c.toNat && c.toNat ≤ 122) ||
    (48 ≤ c.toNat && c.toNat ≤ 57)

/-- Replace each maximal whitespace run with a single hyphen (the
`replace(/\s+/g, replacement)` step of slugify); the flag records whether
the previous kept character was whitespace. -/
def collapseWs : Bool → List Char → List Char
  | _, [] => []
  | prevWs, c :: cs =>
    if jsWhitespace c then
      if prevWs then collapseWs true cs else '-' :: collapseWs true cs
    else c :: collapseWs false cs

/-- Drop leading and trailing whitespace from a character list. -/
def trimWsChars (cs : List Char) : List Char :=
  ((cs.dropWhile jsWhitespace).reverse.dropWhile jsWhitespace).reverse

/-- JavaScript `String.prototype.trim` (whitespace stripped from both
ends), used by the `trim()` sanitizers and by the name setters of the
models. -/
def jsTrim (s : String) : String := String.mk (trimWsChars s.data)

/-- The `slugify` npm function at the options used everywhere in this code
base: `{ lower: true, strict: true, remove: /[*+~.()'"!:@]/g }`. Steps of
the library, in order: map the replacement character `-` to a space, drop
characters matched by the remove regex, strict mode drops everything that
is not an ASCII alphanumeric or whitespace, trim, replace whitespace runs
with `-`, and lowercase. (The unicode character map of the library is the
identity on the ASCII range modelled here.) -/
def slugify (s : String) : String :=
  let step1 := (s.data.map fun c => if c = '-' then ' ' else c).filter
    fun c => !(slugifyRemoveSet.contains c)
  let step2 := step1.filter fun c => asciiAlphaNum c || jsWhitespace c
  let step3 := trimWsChars step2
  String.mk ((collapseWs false step3).map Char.toLower)

/-- The `^[a-z0-9-]+$` pattern required of an explicit slug by the model
validations and by the `body("slug")` validators. -/
def isSlugChar (c : Char) : Bool :=
  (97 ≤ c.toNat && c.toNat ≤ 122) || (48 ≤ c.toNat && c.toNat ≤ 57) ||
    c.toNat = 45

/-- Decidable form of the slug pattern `^[a-z0-9-]+$`. -/
def isSlugStr (s : String) : Bool :=
  !(s = "") && s.data.all isSlugChar

theorem toLower_of_isSlugChar {c : Char} (h : isSlugChar c = true) :
    Char.toLower c = c := by
  unfold Char.toLower
  simp only [isSlugChar, Bool.or_eq_true, Bool.and_eq_true, decide_eq_true_eq] at h
  have : ¬(c.toNat ≥ 65 ∧ c.toNat ≤ 90) := by omega
  simp [this]

theorem map_toLower_of_slugChars {cs : List Char}
    (h : ∀ c ∈ cs, isSlugChar c = true) : cs.map Char.toLower = cs := by
  induction cs with
  | nil => rfl
  | cons c cs ih =>
    simp only [List.map_cons]
    rw [toLower_of_isSlugChar (h c (by simp)),
      ih fun x hx => h x (by simp [hx])]

theorem jsToLower_of_isSlugStr {s : String} (h : isSlugStr s = true) :
    jsToLower s = s := by
  unfold isSlugStr at h
  simp only [Bool.and_eq_true, List.all_eq_true] at h
  unfold jsToLower
  cases s with
  | mk data => exact congrArg String.mk (map_toLower_of_slugChars h.2)

theorem toNat_ofNat_of_valid {n : Nat} (hv : n.isValidChar) :
    (Char.ofNat n).toNat = n := by
  unfold Char.ofNat
  rw [dif_pos hv]
  simp [Char.ofNatAux, Char.toNat, UInt32.toNat, BitVec.toNat_ofNatLt]

theorem toLower_toLower (c : Char) :
    Char.toLower (Char.toLower c) = Char.toLower c := by
  unfold Char.toLower
  by_cases h : c.toNat ≥ 65 ∧ c.toNat ≤ 90
  · rw [if_pos h]
    have hv : (Char.ofNat (c.toNat + 32)).toNat = c.toNat + 32 :=
      toNat_ofNat_of_valid (Or.inl (by omega))
    rw [hv, if_neg (by omega)]
  · rw [if_neg h, if_neg h]

theorem jsToLower_slugify (s : String) : jsToLower (slugify s) = slugify s := by
  unfold slugify jsToLower
  simp only [List.map_map]
  exact congrArg String.mk
    (List.map_congr_left fun c _ => toLower_toLower c)

/-- Slug attribute assembly shared verbatim by the Category and Product
models (category.model.js lines 33 to 86, product.model.js lines 48 to 58
and 273 to 284): the `set` hook of `name` derives a slug from the raw name
when the slug attribute is unset or empty; the `beforeValidate` hook
re-derives from the (already trimmed) stored name when the slug is still
falsy, then lowercases a truthy slug. -/
def modelSlug (rawName : String) (slugOpt : Option String) : String :=
  let fromSetter : String :=
    match slugOpt with
    | some s => if s = "" then slugify rawName else s
    | none => slugify rawName
  let afterHook : String :=
    if fromSetter = "" && !(rawName = "") then slugify (jsTrim rawName)
    else fromSetter
  if afterHook = "" then afterHook else jsToLower afterHook

/-- The slug pre-derivation done inside createProduct, updateProduct and
updateCategory before handing the payload to the model:
`if (data.name && !data.slug) data.slug = slugify(data.name, ...)`. -/
def controllerSlugPrep (nameOpt slugOpt : Option String) : Option String :=
  match nameOpt with
  | some nm => if !(nm = "") && jsFalsy slugOpt then some (slugify nm) else slugOpt
  | none => slugOpt

/-- The pagination envelope every list endpoint assembles from the count
query, the requested page and the requested limit (category controller
lines 76 to 95, product controller lines 126 to 145, admin controller
lines 119 to 138). `route` stands for the
protocol://host/baseUrl/path prefix of the link URLs. -/
structure Pagination where
  currentPage : Nat
  totalPages : Nat
  totalItems : Nat
  itemsPerPage : Nat
  hasNext : Bool
  hasPrev : Bool
  nextPageUrl : Option String
  prevPageUrl : Option String
deriving DecidableEq, Repr

/-- A page link URL, `route?page=p&limit=l`. -/
def pageUrl (route : String) (page limit : Nat) : String :=
  route ++ "?page=" ++ toString page ++ "&limit=" ++ toString limit

/-- `Math.ceil(count / limit)` on validated integer inputs. -/
def jsCeilDiv (count limit : Nat) : Nat := (count + limit - 1) / limit

/-- The pagination envelope, translated from the response assembly of the
three list controllers (all three compute the same fields the same way on
validated integer query parameters). -/
def buildPagination (route : String) (count page limit : Nat) : Pagination :=
  let tp := jsCeilDiv count limit
  { currentPage := page
    totalPages := tp
    totalItems := count
    itemsPerPage := limit
    hasNext := page < tp
    hasPrev := 1 < page
    nextPageUrl := if page < tp then some (pageUrl route (page + 1) limit) else none
    prevPageUrl := if 1 < page then some (pageUrl route (page - 1) limit) else none }

/-- `parseInt` on a query parameter with the destructuring default `d`;
the list validators guarantee the parameter, when present, is a decimal
integer string. -/
def parseIntOr (o : Option String) (d : Nat) : Nat :=
  match o with
  | none => d
  | some s => (s.toNat?).getD 0

/-- Case-insensitive containment, the semantics of `Op.iLike` with a
`%term%` pattern. -/
def containsCI (hay needle : String) : Bool :=
  decide ((jsToLower needle).data <:+: (jsToLower hay).data)

/-- A stored category row. -/
structure CategoryRec where
  id : Nat
  name : String
  slug : String
  description : Option String
  isActive : Bool
  createdAt : Nat
  updatedAt : Nat
  deletedAt : Option Nat
deriving DecidableEq, Repr

/-- The categories table. -/
abbrev CategoryStore := List CategoryRec

/-- `Category.findOne` under the default scope (`where: { isActive: true }`,
category.model.js lines 69 to 72, AND-merged with the caller where clause)
and the paranoid flag (`true` excludes rows with a non-null deletedAt;
passing `paranoid: false` lifts only that exclusion, not the scope). -/
def categoryFindOne (st : CategoryStore) (paranoid : Bool)
    (p : CategoryRec → Bool) : Option CategoryRec :=
  st.find? fun r => r.isActive && (!paranoid || r.deletedAt == none) && p r

/-- Outcome of a delete endpoint. -/
inductive DeleteOutcome where
  | notFound
  | deleted
deriving DecidableEq, Repr

/-- Outcome of a restore endpoint. -/
inductive RestoreOutcome where
  | notFound
  | notDeleted
  | restored
deriving DecidableEq, Repr

/-- HTTP status the controllers attach to each restore outcome. -/
def RestoreOutcome.status : RestoreOutcome → Nat
  | notFound => 404
  | notDeleted => 400
  | restored => 200

/-- The `success` flag of the JSON envelope for each restore outcome. -/
def RestoreOutcome.success : RestoreOutcome → Bool
  | notFound => false
  | notDeleted => false
  | restored => true

/-- Sequelize paranoid `instance.destroy()`: the row keeps all attributes
but gains a deletion timestamp; the deletion is persisted through an
instance save, which also refreshes updatedAt. -/
def categoryDestroyRow (st : CategoryStore) (id now : Nat) : CategoryStore :=
  st.map fun r =>
    if r.id = id then { r with deletedAt := some now, updatedAt := now } else r

/-- Sequelize `instance.restore()`: deletedAt is reset to null and the row
is saved, refreshing updatedAt. -/
def categoryRestoreRow (st : CategoryStore) (id now : Nat) : CategoryStore :=
  st.map fun r =>
    if r.id = id then { r with deletedAt := none, updatedAt := now } else r

/-- deleteCategory (category controller lines 183 to 209): find the row
through the scoped, paranoid findOne; 404 when absent, otherwise soft
delete it. -/
def deleteCategory (st : CategoryStore) (id now : Nat) :
    DeleteOutcome × CategoryStore :=
  match categoryFindOne st true (fun r => r.id == id) with
  | none => (.notFound, st)
  | some _ => (.deleted, categoryDestroyRow st id now)

/-- A JavaScript read of an instance attribute: `undefined` when the
SELECT excluded the column, otherwise the stored nullable value. -/
inductive AttrRead where
  | undefined
  | null
  | value (t : Nat)
deriving DecidableEq, Repr

/-- `category.deletedAt` as the restore controller reads it: the
Category default scope excludes createdAt, updatedAt and deletedAt from
the attributes of every scoped fetch — `paranoid: false` lifts only the
deleted-row filter, not the attribute exclusion — so the instance
property is JavaScript undefined regardless of the stored value. -/
def categoryReadDeletedAt (_r : CategoryRec) : AttrRead := .undefined

/-- restoreCategory (category controller lines 212 to 249): find the
row with `paranoid: false`; 404 when absent. The guard
`if (category.deletedAt === null)` means to reject a non-deleted row
with 400, but the fetched instance has no deletedAt attribute (see
`categoryReadDeletedAt`), so the strict comparison is
`undefined === null`, constantly false, and the 400 branch is
unreachable: every found row is restored. -/
def restoreCategory (st : CategoryStore) (id now : Nat) :
    RestoreOutcome × CategoryStore :=
  match categoryFindOne st false (fun r => r.id == id) with
  | none => (.notFound, st)
  | some r =>
    if categoryReadDeletedAt r == AttrRead.null then (.notDeleted, st)
    else (.restored, categoryRestoreRow st id now)

/-- The query-string parameters of the category list endpoint. -/
structure ListQuery where
  page : Option String
  limit : Option String
  search : Option String
  isActive : Option String
  includeInactive : Option String
  includeDeleted : Option String
deriving DecidableEq, Repr

/-- A list query with every parameter absent. -/
def ListQuery.empty : ListQuery :=
  { page := none, limit := none, search := none, isActive := none,
    includeInactive := none, includeDeleted := none }

/-- The where clause getAllCategories builds (category controller lines
44 to 61), AND-merged with the default scope `isActive: true`:
an explicit isActive parameter filters on `isActive === "true"`; otherwise
a falsy includeInactive restricts to active rows; a truthy search term
expands to a case-insensitive OR over name, slug and description. -/
def categoryListWhere (q : ListQuery) (r : CategoryRec) : Bool :=
  let activeOk :=
    match q.isActive with
    | some s => r.isActive == (s == "true")
    | none => if queryTruthy q.includeInactive then true else r.isActive
  let searchOk :=
    match q.search with
    | some s =>
      if s = "" then true
      else
        containsCI r.name s || containsCI r.slug s ||
          (match r.description with
           | some d => containsCI d s
           | none => false)
    | none => true
  r.isActive && activeOk && searchOk

/-- The rows getAllCategories returns (category controller lines 29 to 70):
the where clause above, the paranoid flag computed as `!includeDeleted`
from the raw query string, then offset and limit. The whitelisted sort is
not modelled; rows keep store order. -/
def getAllCategoriesRows (st : CategoryStore) (q : ListQuery) :
    List CategoryRec :=
  let paranoid := !(queryTruthy q.includeDeleted)
  let matched := st.filter fun r =>
    categoryListWhere q r && (!paranoid || r.deletedAt == none)
  let page := parseIntOr q.page 1
  let limit := parseIntOr q.limit 10
  (matched.drop ((page - 1) * limit)).take limit

/-- A stored product row. DECIMAL columns are embedded as integers (order
embedding; read them scaled by 1000). -/
structure ProductRec where
  id : Nat
  categoryId : Nat
  name : String
  slug : String
  description : String
  price : Int
  quantity : Int
  minQuantity : Option Int
  maxQuantity : Option Int
  unitType : String
  inStock : Bool
  isActive : Bool
  createdAt : Nat
  updatedAt : Nat
  deletedAt : Option Nat
deriving DecidableEq, Repr

/-- The products table. -/
abbrev ProductStore := List ProductRec

/-- `Product.findOne` under the default scope `where: { isActive: true }`
(product.model.js lines 266 to 271) and the paranoid flag. -/
def productFindOne (st : ProductStore) (paranoid : Bool)
    (p : ProductRec → Bool) : Option ProductRec :=
  st.find? fun r => r.isActive && (!paranoid || r.deletedAt == none) && p r

/-- The beforeSave hook of the Product model (product.model.js lines 296
to 309): a save is aborted when the quantity lies below a non-null
minQuantity or above a non-null maxQuantity of the record being saved. -/
def productBeforeSave (p : ProductRec) : Except String Unit :=
  if (match p.minQuantity with
      | some mn => decide (p.quantity < mn)
      | none => false) then
    .error "Quantity cannot be less than minimum quantity"
  else if (match p.maxQuantity with
      | some mx => decide (mx < p.quantity)
      | none => false) then
    .error "Quantity cannot exceed maximum quantity"
  else .ok ()

/-- Persisting a built or updated product instance, the step shared by
`Product.create` and `product.update(...)`: the beforeValidate hook
derives inStock from the quantity (product.model.js lines 292 to 294),
timestamps are refreshed, and the beforeSave hook re-checks the stored
quantity bounds; an error aborts the write, leaving the table as it was
(the caller keeps the old store on `.error`). On success the row with the
instance id is replaced. -/
def productSave (st : ProductStore) (inst : ProductRec) (now : Nat) :
    Except String ProductStore :=
  let inst := { inst with inStock := decide (0 < inst.quantity), updatedAt := now }
  match productBeforeSave inst with
  | .error e => .error e
  | .ok _ => .ok (st.map fun r => if r.id = inst.id then inst else r)

/-- Sequelize paranoid `instance.destroy()` for products. -/
def productDestroyRow (st : ProductStore) (id now : Nat) : ProductStore :=
  st.map fun r =>
    if r.id = id then { r with deletedAt := some now, updatedAt := now } else r

/-- Sequelize `instance.restore()` for products. -/
def productRestoreRow (st : ProductStore) (id now : Nat) : ProductStore :=
  st.map fun r =>
    if r.id = id then { r with deletedAt := none, updatedAt := now } else r

/-- deleteProduct (product controller lines 250 to 276). -/
def deleteProduct (st : ProductStore) (id now : Nat) :
    DeleteOutcome × ProductStore :=
  match productFindOne st true (fun r => r.id == id) with
  | none => (.notFound, st)
  | some _ => (.deleted, productDestroyRow st id now)

/-- `product.deletedAt` as the restore controller reads it: the Product
default scope likewise excludes the deletedAt attribute from every
scoped fetch, so the instance property is JavaScript undefined. -/
def productReadDeletedAt (_r : ProductRec) : AttrRead := .undefined

/-- restoreProduct (product controller lines 279 to 316): find with
`paranoid: false`; 404 when absent. As in restoreCategory, the guard
`if (product.deletedAt === null)` compares an attribute the default
scope excluded from the fetch (undefined) strictly against null, so the
400 not-deleted branch is unreachable: every found row is restored. -/
def restoreProduct (st : ProductStore) (id now : Nat) :
    RestoreOutcome × ProductStore :=
  match productFindOne st false (fun r => r.id == id) with
  | none => (.notFound, st)
  | some r =>
    if productReadDeletedAt r == AttrRead.null then (.notDeleted, st)
    else (.restored, productRestoreRow st id now)

/-- The query parameters of the product list endpoint that decide row
visibility (the price, category, stock and unit filters are conjunctive
and orthogonal to the soft-delete claims; they are carried but modelled
only where cited). -/
structure ProductListQuery where
  page : Option String
  limit : Option String
  search : Option String
  isActive : Option String
  includeInactive : Option String
  includeDeleted : Option String
  categoryId : Option String
  inStock : Option String
deriving DecidableEq, Repr

/-- A product list query with every parameter absent. -/
def ProductListQuery.empty : ProductListQuery :=
  { page := none, limit := none, search := none, isActive := none,
    includeInactive := none, includeDeleted := none, categoryId := none,
    inStock := none }

/-- The where clause getAllProducts builds (product controller lines 66 to
108), AND-merged with the default scope `isActive: true`. The source OR
search also spans shortDescription, brand and barcode and filters on a
price range; those columns are not carried by `ProductRec` and their
clauses are dropped here (every claim settled below uses queries whose
search and price parameters are absent, where the clauses are vacuous). -/
def productListWhere (q : ProductListQuery) (r : ProductRec) : Bool :=
  let activeOk :=
    match q.isActive with
    | some s => r.isActive == (s == "true")
    | none => if queryTruthy q.includeInactive then true else r.isActive
  let categoryOk :=
    match q.categoryId with
    | some s => if s = "" then true else r.categoryId == (s.toNat?).getD 0
    | none => true
  let stockOk :=
    match q.inStock with
    | some s => r.inStock == (s == "true")
    | none => true
  let searchOk :=
    match q.search with
    | some s =>
      if s = "" then true
      else
        containsCI r.name s || containsCI r.slug s ||
          containsCI r.description s
    | none => true
  r.isActive && activeOk && categoryOk && stockOk && searchOk

/-- The rows getAllProducts returns (product controller lines 46 to 120):
the where clause, the paranoid flag computed as `!includeDeleted` from the
raw query string, then offset and limit. -/
def getAllProductsRows (st : ProductStore) (q : ProductListQuery) :
    List ProductRec :=
  let paranoid := !(queryTruthy q.includeDeleted)
  let matched := st.filter fun r =>
    productListWhere q r && (!paranoid || r.deletedAt == none)
  let page := parseIntOr q.page 1
  let limit := parseIntOr q.limit 10
  (matched.drop ((page - 1) * limit)).take limit

/-- The accountType enum of the users table. -/
inductive AccountType where
  | admin
  | customer
deriving DecidableEq, Repr

/-- A stored user row. -/
structure UserRec where
  id : Nat
  email : String
  password : String
  accountType : AccountType
  authProvider : String
  isActive : Bool
  lastPasswordChange : Option Nat
  createdAt : Nat
  updatedAt : Nat
  deletedAt : Option Nat
deriving DecidableEq, Repr

/-- A stored admin profile row. -/
structure ProfileRec where
  id : Nat
  userId : Nat
  firstName : String
  lastName : String
  phoneNumber : Option String
  address : Option String
  city : Option String
  bio : Option String
  profilePicture : Option String
  createdAt : Nat
  updatedAt : Nat
  deletedAt : Option Nat
deriving DecidableEq, Repr

/-- The users table. -/
abbrev UserStore := List UserRec

/-- The admin profiles table. -/
abbrev ProfileStore := List ProfileRec

/-- `User.findOne` under the paranoid flag. The User default scope has no
where clause (it only drops the password attribute), so only the paranoid
filter restricts visibility. -/
def userFindOne (st : UserStore) (paranoid : Bool)
    (p : UserRec → Bool) : Option UserRec :=
  st.find? fun u => (!paranoid || u.deletedAt == none) && p u

/-- Opaque stand-in for `bcrypt.hash(password, 12)`; only its application
points matter to the claims below. -/
def bcryptHash (pw : String) : String := String.append "bcrypt12$" pw

/-- A JSON leaf value of a serialized response. -/
inductive JVal where
  | s (v : String)
  | n (v : Int)
  | b (v : Bool)
  | null
deriving DecidableEq, Repr

/-- Nullable serialization helper. -/
def optJVal {α : Type} (f : α → JVal) : Option α → JVal
  | some v => f v
  | none => .null

/-- The string form of an accountType value. -/
def accountTypeStr : AccountType → String
  | .admin => "admin"
  | .customer => "customer"

/-- `super.toJSON()` of a User instance: its attributes as key-value
pairs. -/
def userAttrs (u : UserRec) : List (String × JVal) :=
  [("id", .n (Int.ofNat u.id)),
   ("email", .s u.email),
   ("password", .s u.password),
   ("accountType", .s (accountTypeStr u.accountType)),
   ("authProvider", .s u.authProvider),
   ("isActive", .b u.isActive),
   ("lastPasswordChange", optJVal (fun n => .n (Int.ofNat n)) u.lastPasswordChange),
   ("createdAt", .n (Int.ofNat u.createdAt)),
   ("updatedAt", .n (Int.ofNat u.updatedAt)),
   ("deletedAt", optJVal (fun n => .n (Int.ofNat n)) u.deletedAt)]

/-- `User.prototype.toJSON` (user.model.js lines 14 to 18): the spread of
`super.toJSON()` followed by `delete values.password`. Every admin
endpoint serializes user data through this method (the list and detail
reads additionally load the instance under the default scope, which
already omits the password attribute). -/
def userToJSON (u : UserRec) : List (String × JVal) :=
  (userAttrs u).filter fun kv => !(kv.1 = "password")

/-- The custom uniqueness check of validateEmail in the admin validator
(part_003 lines 42 to 50): `User.findOne` on the email, scoped to
`accountType: "admin"`, excluding the id path parameter (`|| 0` when
absent), under the default paranoid filter. `true` means no conflicting
admin exists. -/
def adminEmailAvailable (ust : UserStore) (em : String)
    (idOpt : Option Nat) : Bool :=
  (userFindOne ust true fun u =>
    u.email == em && u.accountType == AccountType.admin &&
      !(u.id == idOpt.getD 0)).isNone

/-- The request body of the admin create endpoint. -/
structure AdminCreatePayload where
  email : String
  password : String
  firstName : String
  lastName : String
  phoneNumber : Option String
  address : Option String
  city : Option String
  bio : Option String
deriving DecidableEq, Repr

/-- Result of the admin create endpoint: HTTP status, success flag, the
serialized user part of the response body, and both tables afterwards. -/
structure AdminCreateResult where
  status : Nat
  success : Bool
  userJson : List (String × JVal)
  users : UserStore
  profiles : ProfileStore
deriving DecidableEq, Repr

/-- createAdmin (admin controller lines 7 to 64): an unscoped
`User.findOne({ where: { email } })` rejects any live account, admin or
customer, with 400 "Email already exists"; otherwise `User.create` runs
(the beforeCreate hook hashes the password and stamps lastPasswordChange;
the unique index of the users table, which also covers soft-deleted rows,
surfaces as a 400 through the error handler) and the profile row is
created; the 201 response serializes the fresh instance via toJSON. -/
def createAdmin (ust : UserStore) (pst : ProfileStore)
    (p : AdminCreatePayload) (newUserId newProfileId now : Nat) :
    AdminCreateResult :=
  match userFindOne ust true (fun u => u.email == p.email) with
  | some _ =>
    { status := 400, success := false, userJson := [],
      users := ust, profiles := pst }
  | none =>
    if ust.any (fun u => u.email == p.email) then
      { status := 400, success := false, userJson := [],
        users := ust, profiles := pst }
    else
      let user : UserRec :=
        { id := newUserId, email := p.email,
          password := bcryptHash p.password, accountType := .admin,
          authProvider := "local", isActive := true,
          lastPasswordChange := some now, createdAt := now,
          updatedAt := now, deletedAt := none }
      let profile : ProfileRec :=
        { id := newProfileId, userId := newUserId,
          firstName := p.firstName, lastName := p.lastName,
          phoneNumber := p.phoneNumber, address := p.address,
          city := p.city, bio := p.bio, profilePicture := none,
          createdAt := now, updatedAt := now, deletedAt := none }
      { status := 201, success := true, userJson := userToJSON user,
        users := ust ++ [user], profiles := pst ++ [profile] }

/-- Result of a read endpoint returning one admin. -/
structure AdminViewResult where
  status : Nat
  success : Bool
  userJson : List (String × JVal)
deriving DecidableEq, Repr

/-- getAdminById (admin controller lines 156 to 190): a scoped, paranoid
findOne; the 200 response serializes the instance via toJSON. -/
def getAdminById (ust : UserStore) (id : Nat) : AdminViewResult :=
  match userFindOne ust true
      (fun u => u.id == id && u.accountType == AccountType.admin) with
  | none => { status := 404, success := false, userJson := [] }
  | some u => { status := 200, success := true, userJson := userToJSON u }

/-- The query parameters of the admin list endpoint. The city filter and
the profile-name search branches of the source are not modelled (no claim
below exercises them; the former references a column the users table does
not have). -/
structure AdminListQuery where
  page : Option String
  limit : Option String
  isActive : Option String
  includeDeleted : Option String
deriving DecidableEq, Repr

/-- An admin list query with every parameter absent. -/
def AdminListQuery.empty : AdminListQuery :=
  { page := none, limit := none, isActive := none, includeDeleted := none }

/-- The rows getAllAdmins returns (admin controller lines 67 to 114):
accountType admin, the optional isActive filter, and the paranoid flag
computed as `includeDeleted !== "true"`; then offset and limit. -/
def getAllAdminsRows (ust : UserStore) (q : AdminListQuery) :
    List UserRec :=
  let paranoid := !(q.includeDeleted == some "true")
  let matched := ust.filter fun u =>
    u.accountType == AccountType.admin &&
    (match q.isActive with
     | some s => u.isActive == (s == "true")
     | none => true) &&
    (!paranoid || u.deletedAt == none)
  let page := parseIntOr q.page 1
  let limit := parseIntOr q.limit 10
  (matched.drop ((page - 1) * limit)).take limit

/-- The serialized data array of the admin list response. -/
def getAllAdminsJson (ust : UserStore) (q : AdminListQuery) :
    List (List (String × JVal)) :=
  (getAllAdminsRows ust q).map userToJSON

/-- The request body of the admin update endpoint (all fields optional). -/
structure AdminUpdatePayload where
  email : Option String
  password : Option String
  isActive : Option Bool
  firstName : Option String
  lastName : Option String
  phoneNumber : Option String
  address : Option String
  city : Option String
  bio : Option String
deriving DecidableEq, Repr

/-- An admin update payload with every field absent. -/
def AdminUpdatePayload.empty : AdminUpdatePayload :=
  { email := none, password := none, isActive := none, firstName := none,
    lastName := none, phoneNumber := none, address := none, city := none,
    bio := none }

/-- `admin.update(updateData)`: the User-level fields present in the
payload are applied; the beforeUpdate hook rehashes a changed password and
refreshes lastPasswordChange; the save refreshes updatedAt. -/
def applyUserUpdate (u : UserRec) (p : AdminUpdatePayload) (now : Nat) :
    UserRec :=
  let u1 := match p.email with
    | some e => { u with email := e }
    | none => u
  let u2 := match p.password with
    | some pw =>
      { u1 with password := bcryptHash pw, lastPasswordChange := some now }
    | none => u1
  let u3 := match p.isActive with
    | some b => { u2 with isActive := b }
    | none => u2
  { u3 with updatedAt := now }

/-- `admin.adminProfile.update(updateData)`: the profile-level fields
present in the payload are applied; when nothing changes the save is
skipped and updatedAt keeps its value. -/
def applyProfileUpdate (pr : ProfileRec) (p : AdminUpdatePayload)
    (now : Nat) : ProfileRec :=
  let r1 := match p.firstName with
    | some v => { pr with firstName := v }
    | none => pr
  let r2 := match p.lastName with
    | some v => { r1 with lastName := v }
    | none => r1
  let r3 := match p.phoneNumber with
    | some v => { r2 with phoneNumber := some v }
    | none => r2
  let r4 := match p.address with
    | some v => { r3 with address := some v }
    | none => r3
  let r5 := match p.city with
    | some v => { r4 with city := some v }
    | none => r4
  let r6 := match p.bio with
    | some v => { r5 with bio := some v }
    | none => r5
  if r6 = pr then pr else { r6 with updatedAt := now }

/-- Result of the admin update endpoint. -/
structure AdminUpdateResult where
  status : Nat
  success : Bool
  userJson : List (String × JVal)
  users : UserStore
  profiles : ProfileStore
deriving DecidableEq, Repr

/-- updateAdmin (admin controller lines 193 to 268): scoped paranoid
findOne (404 when absent); when the payload carries a truthy email that
differs from the stored one, an admin-scoped findOne excluding this id
rejects a duplicate with 400; the user row is written only when the
payload has a truthy email or password (`updateData.email ||
updateData.password`), in which case the unique email index of the users
table (covering every row) can still reject the write with 400 through
the error handler; the profile row, when one is attached, is updated from
the same payload; the 200 response refetches the user without the
password attribute and serializes it via toJSON. -/
def updateAdmin (ust : UserStore) (pst : ProfileStore) (id : Nat)
    (p : AdminUpdatePayload) (now : Nat) : AdminUpdateResult :=
  match userFindOne ust true
      (fun u => u.id == id && u.accountType == AccountType.admin) with
  | none =>
    { status := 404, success := false, userJson := [],
      users := ust, profiles := pst }
  | some admin =>
    let emailConflict :=
      match p.email with
      | some e =>
        if !(e = "") && !(e == admin.email) then
          (userFindOne ust true fun u =>
            u.email == e && u.accountType == AccountType.admin &&
              !(u.id == id)).isSome
        else false
      | none => false
    if emailConflict then
      { status := 400, success := false, userJson := [],
        users := ust, profiles := pst }
    else
      let writeUser := !(jsFalsy p.email) || !(jsFalsy p.password)
      let uniqueViolation :=
        writeUser &&
          (match p.email with
           | some e => ust.any fun u => !(u.id == id) && u.email == e
           | none => false)
      if uniqueViolation then
        { status := 400, success := false, userJson := [],
          users := ust, profiles := pst }
      else
        let ust2 :=
          if writeUser then
            ust.map fun u => if u.id = id then applyUserUpdate u p now else u
          else ust
        let pst2 := pst.map fun pr =>
          if pr.userId = id && pr.deletedAt == none then
            applyProfileUpdate pr p now
          else pr
        let json :=
          match ust2.find? (fun u => u.id == id) with
          | some u => userToJSON u
          | none => []
        { status := 200, success := true, userJson := json,
          users := ust2, profiles := pst2 }

/-- restoreAdmin (admin controller lines 314 to 358): the user is fetched
with `paranoid: false` together with its possibly deleted profile; when
found, user and profile are restored unconditionally. Unlike the category
and product controllers, there is no check that deletedAt is non-null
before restoring. -/
def restoreAdmin (ust : UserStore) (pst : ProfileStore) (id now : Nat) :
    RestoreOutcome × UserStore × ProfileStore :=
  match userFindOne ust false
      (fun u => u.id == id && u.accountType == AccountType.admin) with
  | none => (.notFound, ust, pst)
  | some _ =>
    ( .restored,
      ust.map fun u =>
        if u.id = id then { u with deletedAt := none, updatedAt := now }
        else u,
      pst.map fun pr =>
        if pr.userId = id then { pr with deletedAt := none, updatedAt := now }
        else pr )

/-- The body of a category create or update request. -/
structure CategoryPayload where
  name : Option String
  slug : Option String
  description : Option String
  isActive : Option Bool
deriving DecidableEq, Repr

/-- A category payload with every field absent. -/
def CategoryPayload.empty : CategoryPayload :=
  { name := none, slug := none, description := none, isActive := none }

/-- The `trim()` sanitizers of the category validator; express-validator
sanitizers rewrite req.body in place, so the controller sees the trimmed
values. -/
def categorySanitize (p : CategoryPayload) : CategoryPayload :=
  { p with
    name := Option.map jsTrim p.name
    slug := Option.map jsTrim p.slug
    description := Option.map jsTrim p.description }

/-- The custom uniqueness check of `body("name")` in the category
validator (part_002 lines 25 to 32): `Category.findOne` on the name,
excluding `req.params.id || 0`, under the default scope and paranoid
filter — only active, non-deleted rows can conflict. The chain records
the failure, but nothing ever consults it: the routes mount
handleValidationErrors before the validator chains
(category.routes.js line 12), so the recorded errors never block the
controller. -/
def categoryNameTaken (st : CategoryStore) (nm : String)
    (idOpt : Option Nat) : Bool :=
  (categoryFindOne st true fun r =>
    r.name == nm && !(r.id == idOpt.getD 0)).isSome

/-- Outcome of a create or update endpoint. The express-validator chains
run only as sanitizers in practice: handleValidationErrors is mounted
before the chains (category.routes.js line 12) and nothing checks the
recorded errors afterwards, so the controller always runs.
`validationFailed` is therefore the 400 the error handler produces from
a Sequelize model-validation failure (part_004 lines 18 to 21), and
`conflict` the 400 it produces from a unique-index violation
(SequelizeUniqueConstraintError, part_004 lines 24 to 27). -/
inductive WriteOutcome where
  | validationFailed (msgs : List String)
  | notFound
  | conflict (msg : String)
  | ok
deriving DecidableEq, Repr

/-- HTTP status of a write outcome (create responds 201 on ok, update
200; both are success statuses). -/
def WriteOutcome.status : WriteOutcome → Nat
  | validationFailed _ => 400
  | notFound => 404
  | conflict _ => 400
  | ok => 200

/-- The `success` flag of the JSON envelope of a write outcome. -/
def WriteOutcome.success : WriteOutcome → Bool
  | ok => true
  | _ => false

/-- createCategory (category controller lines 7 to 26): the validator
chain contributes only its sanitizers (its recorded errors are never
enforced, see `WriteOutcome`); `Category.create` assembles the row
(name setter and beforeValidate hook, `modelSlug`), an absent name or a
failing model validation (slug pattern, name length) raises a
SequelizeValidationError, and the unique slug index of the categories
table — which covers soft-deleted rows — can reject with a conflict;
otherwise the row is inserted with `isActive` defaulting to true. -/
def createCategoryOp (st : CategoryStore) (p : CategoryPayload)
    (newId now : Nat) : WriteOutcome × CategoryStore :=
  let p := categorySanitize p
  match p.name with
  | none => (.validationFailed ["Category.name cannot be null"], st)
  | some nm =>
    let slug := modelSlug nm p.slug
    let storedName := jsTrim nm
    let modelErrs :=
      (if isSlugStr slug then [] else ["Invalid slug format"]) ++
      (if 1 ≤ storedName.length ∧ storedName.length ≤ 50 then []
       else ["Category name must be between 1 and 50 characters"])
    if !(modelErrs = []) then (.validationFailed modelErrs, st)
    else if st.any (fun r => r.slug == slug) then
      (.conflict "This slug is already in use", st)
    else
      (.ok,
        st ++ [{ id := newId, name := storedName, slug := slug,
                 description := p.description,
                 isActive := p.isActive.getD true, createdAt := now,
                 updatedAt := now, deletedAt := none }])

/-- updateCategory (category controller lines 144 to 180): validator
errors are never enforced (see `WriteOutcome`); the controller derives a
slug when the payload has a name but no truthy slug
(`controllerSlugPrep`); a scoped paranoid findOne yields 404 when the
row is invisible; `category.update` applies the present fields through
the setters (the name setter never re-derives on update because the
instance already has a slug), the beforeValidate hook re-derives a falsy
slug from the stored name and lowercases a truthy one, model validations
run, and the unique slug index (all rows except this one) can reject.
When no field value changes, Sequelize skips the save and updatedAt
keeps its value. -/
def updateCategoryOp (st : CategoryStore) (id : Nat) (p : CategoryPayload)
    (now : Nat) : WriteOutcome × CategoryStore :=
  let p := categorySanitize p
  let slugData := controllerSlugPrep p.name p.slug
  match categoryFindOne st true (fun r => r.id == id) with
  | none => (.notFound, st)
  | some r =>
    let newName := match p.name with
      | some nm => jsTrim nm
      | none => r.name
    let slug0 := match slugData with
      | some s => s
      | none => r.slug
    let slug1 :=
      if slug0 = "" && !(newName = "") then slugify (jsTrim newName)
      else slug0
    let newSlug := if slug1 = "" then slug1 else jsToLower slug1
    let modelErrs :=
      (if isSlugStr newSlug then [] else ["Invalid slug format"]) ++
      (if 1 ≤ newName.length ∧ newName.length ≤ 50 then []
       else ["Category name must be between 1 and 50 characters"])
    if !(modelErrs = []) then (.validationFailed modelErrs, st)
    else if st.any (fun x => x.slug == newSlug && !(x.id == id)) then
      (.conflict "This slug is already in use", st)
    else
      (.ok,
        st.map fun x =>
          if x.id = id then
            let x2 := { x with
              name := newName
              slug := newSlug
              description := (match p.description with
                | some d => some d
                | none => x.description)
              isActive := p.isActive.getD x.isActive }
            if x2 = x then x else { x2 with updatedAt := now }
          else x)

/-- A concrete product with minQuantity 5 and maxQuantity 10 at quantity
`q`, used as a test vector. -/
def sampleProduct (q : Int) : ProductRec :=
  { id := 1, categoryId := 1, name := "Apple", slug := "apple",
    description := "Fresh red apples", price := 100, quantity := q,
    minQuantity := some 5, maxQuantity := some 10, unitType := "kg",
    inStock := true, isActive := true, createdAt := 0, updatedAt := 0,
    deletedAt := none }

/-- C3: a product write persists only quantities within the stored
[minQuantity, maxQuantity] bounds when they are set: a successful save
implies both bounds hold for the saved record, a quantity below a set
minQuantity aborts the save with the minimum error, and a quantity above
a set maxQuantity (with the minimum bound satisfied, which is checked
first) aborts it with the maximum error; an aborted save produces no new
table, so the stored record is unchanged. -/
theorem productSave_respects_quantity_bounds (st : ProductStore)
    (inst : ProductRec) (now : Nat) :
    (∀ st2, productSave st inst now = .ok st2 →
      (∀ mn, inst.minQuantity = some mn → mn ≤ inst.quantity) ∧
      (∀ mx, inst.maxQuantity = some mx → inst.quantity ≤ mx)) ∧
    (∀ mn, inst.minQuantity = some mn → inst.quantity < mn →
      productSave st inst now =
        .error "Quantity cannot be less than minimum quantity") ∧
    (∀ mx, inst.maxQuantity = some mx → mx < inst.quantity →
      (∀ mn, inst.minQuantity = some mn → mn ≤ inst.quantity) →
      productSave st inst now =
        .error "Quantity cannot exceed maximum quantity") := by
  refine ⟨?_, ?_, ?_⟩
  · intro st2 hok
    simp only [productSave, productBeforeSave] at hok
    split at hok
    · simp at hok
    · next heq =>
      split at heq
      · simp at heq
      · split at heq
        · simp at heq
        · next h1 h2 =>
          constructor
          · intro mn hmn
            rw [hmn] at h1
            simp at h1
            omega
          · intro mx hmx
            rw [hmx] at h2
            simp at h2
            omega
  · intro mn hmn hlt
    simp only [productSave, productBeforeSave, hmn]
    rw [if_pos (by simpa using hlt)]
  · intro mx hmx hlt hmn
    simp only [productSave, productBeforeSave, hmx]
    rw [if_neg ?_, if_pos (by simpa using hlt)]
    cases h : inst.minQuantity with
    | none => simp
    | some mn =>
      have := hmn mn h
      simp
      omega

/-- Witness for C3: with minQuantity 5 and maxQuantity 10, quantity 3 and
quantity 12 are rejected with their respective messages and quantity 7 is
accepted. -/
theorem productSave_respects_quantity_bounds_witness :
    productSave [] (sampleProduct 3) 0 =
      .error "Quantity cannot be less than minimum quantity" ∧
    productSave [] (sampleProduct 12) 0 =
      .error "Quantity cannot exceed maximum quantity" ∧
    productSave [] (sampleProduct 7) 0 = .ok [] := by
  refine ⟨?_, ?_, rfl⟩
  · exact (productSave_respects_quantity_bounds [] (sampleProduct 3) 0).2.1
      5 rfl (by decide)
  · exact (productSave_respects_quantity_bounds [] (sampleProduct 12) 0).2.2
      10 rfl (by decide)
      (fun mn h => by
        simp only [sampleProduct, Option.some.injEq] at h
        simp only [sampleProduct]
        omega)

theorem jsCeilDiv_eq_ceil (count limit : Nat) (hl : 1 ≤ limit) :
    ((jsCeilDiv count limit : Nat) : ℤ) = ⌈(count : ℚ) / (limit : ℚ)⌉ := by
  have hl0 : (0:ℚ) < (limit:ℚ) := by exact_mod_cast hl
  have h1 := Nat.div_add_mod (count + limit - 1) limit
  have h2 : (count + limit - 1) % limit < limit := Nat.mod_lt _ (by omega)
  obtain ⟨P, hP⟩ : ∃ P, limit * ((count + limit - 1) / limit) = P := ⟨_, rfl⟩
  rw [hP] at h1
  have key1 : jsCeilDiv count limit * limit < count + limit := by
    unfold jsCeilDiv
    rw [Nat.mul_comm, hP]
    omega
  have key2 : count ≤ jsCeilDiv count limit * limit := by
    unfold jsCeilDiv
    rw [Nat.mul_comm, hP]
    omega
  symm
  rw [Int.ceil_eq_iff]
  constructor
  · rw [lt_div_iff₀ hl0]
    have hq : ((jsCeilDiv count limit : Nat) : ℚ) * limit < count + limit := by
      exact_mod_cast key1
    push_cast
    linarith
  · rw [div_le_iff₀ hl0]
    exact_mod_cast key2

/-- C6: on validated inputs (the query validators force limit between 1
and 100 and page at least 1), the pagination envelope of the list
endpoints satisfies totalPages = ceil(count / limit), hasNext iff the
page is strictly below totalPages, hasPrev iff the page is above 1, and
page 1 carries a null prevPageUrl. -/
theorem buildPagination_envelope (route : String) (count page limit : Nat)
    (hl : 1 ≤ limit) :
    (((buildPagination route count page limit).totalPages : ℤ) =
      ⌈(count : ℚ) / (limit : ℚ)⌉) ∧
    ((buildPagination route count page limit).hasNext = true ↔
      page < (buildPagination route count page limit).totalPages) ∧
    ((buildPagination route count page limit).hasPrev = true ↔ 1 < page) ∧
    (page = 1 → (buildPagination route count page limit).prevPageUrl = none) := by
  refine ⟨jsCeilDiv_eq_ceil count limit hl, ?_, ?_, ?_⟩
  · simp [buildPagination]
  · simp [buildPagination]
  · intro hp
    simp [buildPagination, hp]

/-- Witness for C6 at count 25, page 1, limit 10. -/
theorem buildPagination_envelope_witness :
    (((buildPagination "/api/categories" 25 1 10).totalPages : ℤ) =
      ⌈(25 : ℚ) / (10 : ℚ)⌉) ∧
    ((buildPagination "/api/categories" 25 1 10).hasNext = true ↔
      1 < (buildPagination "/api/categories" 25 1 10).totalPages) ∧
    ((buildPagination "/api/categories" 25 1 10).hasPrev = true ↔ 1 < 1) ∧
    (1 = 1 → (buildPagination "/api/categories" 25 1 10).prevPageUrl = none) :=
  buildPagination_envelope "/api/categories" 25 1 10 (by decide)

/-- A soft-deleted but active category row. -/
def deletedCategoryRow : CategoryRec :=
  { id := 1, name := "Phones", slug := "phones", description := none,
    isActive := true, createdAt := 0, updatedAt := 0, deletedAt := some 42 }

/-- A soft-deleted but active product row. -/
def deletedProductRow : ProductRec :=
  { id := 1, categoryId := 1, name := "Apple", slug := "apple",
    description := "Fresh red apples", price := 100, quantity := 1,
    minQuantity := none, maxQuantity := none, unitType := "kg",
    inStock := true, isActive := true, createdAt := 0, updatedAt := 0,
    deletedAt := some 42 }

/-- A soft-deleted admin user row. -/
def deletedAdminRow : UserRec :=
  { id := 1, email := "gone@mail.com", password := "bcrypt12$pw",
    accountType := .admin, authProvider := "local", isActive := true,
    lastPasswordChange := none, createdAt := 0, updatedAt := 0,
    deletedAt := some 42 }

/-- C2 (code bug evaluation): a category or product list request carrying
the explicit parameter includeDeleted=false returns a soft-deleted row.
The category and product controllers compute the paranoid flag as
`!includeDeleted` on the raw query string, and the nonempty string
"false" is truthy in JavaScript, so an explicit false turns the
soft-delete filter off; with the parameter absent the filter applies and
no deleted row is returned, and the admin list, which compares
`includeDeleted !== "true"`, handles the explicit false correctly. -/
theorem includeDeleted_false_string_leaks_deleted_rows :
    getAllCategoriesRows [deletedCategoryRow]
      { ListQuery.empty with includeDeleted := some "false" } =
        [deletedCategoryRow] ∧
    deletedCategoryRow.deletedAt = some 42 ∧
    getAllCategoriesRows [deletedCategoryRow] ListQuery.empty = [] ∧
    getAllProductsRows [deletedProductRow]
      { ProductListQuery.empty with includeDeleted := some "false" } =
        [deletedProductRow] ∧
    deletedProductRow.deletedAt = some 42 ∧
    getAllProductsRows [deletedProductRow] ProductListQuery.empty = [] ∧
    getAllAdminsRows [deletedAdminRow]
      { AdminListQuery.empty with includeDeleted := some "false" } = [] :=
  ⟨rfl, rfl, rfl, rfl, rfl, rfl, rfl⟩

/-- A never-deleted admin user row. -/
def activeAdminRow : UserRec :=
  { id := 1, email := "ann@mail.com", password := "bcrypt12$pw",
    accountType := .admin, authProvider := "local", isActive := true,
    lastPasswordChange := none, createdAt := 0, updatedAt := 0,
    deletedAt := none }

/-- An attached, never-deleted admin profile row. -/
def activeProfileRow : ProfileRec :=
  { id := 1, userId := 1, firstName := "Ann", lastName := "Lee",
    phoneNumber := none, address := none, city := none, bio := none,
    profilePicture := none, createdAt := 0, updatedAt := 0,
    deletedAt := none }

/-- C1 counterexample: restoring a never-deleted admin (deletedAt null)
responds 200 with success = true, not a 400 StateError: the admin restore
controller restores unconditionally, so the claim fails for the admin
entity kind. -/
theorem restoreAdmin_nondeleted_reports_success :
    activeAdminRow.deletedAt = none ∧
    (restoreAdmin [activeAdminRow] [activeProfileRow] 1 5).1 = .restored ∧
    (restoreAdmin [activeAdminRow] [activeProfileRow] 1 5).1.status = 200 ∧
    (restoreAdmin [activeAdminRow] [activeProfileRow] 1 5).1.success = true :=
  ⟨rfl, rfl, rfl, rfl⟩

/-- An active, never-deleted category row whose slug is the derived
one. -/
def activeCategoryRow : CategoryRec :=
  { id := 1, name := "Phones", slug := "phones", description := none,
    isActive := true, createdAt := 0, updatedAt := 0, deletedAt := none }

/-- C1 amended: no entity kind rejects restoring a non-deleted record.
The admin restore controller has no deletedAt check at all, and the
category and product guards compare the deletedAt property of a
default-scoped fetch — which excludes that attribute, hence JavaScript
undefined — strictly against null, so their 400 not-deleted branch is
unreachable: restoring any found record, deleted or not, responds 200
with success = true, and the restore sets the stored deletedAt to
null. -/
theorem restore_reports_success_for_all_kinds
    (cst : CategoryStore) (c : CategoryRec)
    (pst : ProductStore) (p : ProductRec)
    (ust : UserStore) (prst : ProfileStore) (u : UserRec) (now : Nat)
    (hc : categoryFindOne cst false (fun r => r.id == c.id) = some c)
    (hp : productFindOne pst false (fun r => r.id == p.id) = some p)
    (hu : userFindOne ust false
      (fun x => x.id == u.id && x.accountType == AccountType.admin) = some u) :
    restoreCategory cst c.id now =
      (.restored, categoryRestoreRow cst c.id now) ∧
    restoreProduct pst p.id now =
      (.restored, productRestoreRow pst p.id now) ∧
    (restoreAdmin ust prst u.id now).1 = .restored ∧
    RestoreOutcome.restored.status = 200 ∧
    RestoreOutcome.restored.success = true ∧
    (∀ r2 ∈ categoryRestoreRow cst c.id now, r2.id = c.id →
      r2.deletedAt = none) ∧
    (∀ r2 ∈ productRestoreRow pst p.id now, r2.id = p.id →
      r2.deletedAt = none) := by
  refine ⟨?_, ?_, ?_, rfl, rfl, ?_, ?_⟩
  · simp only [restoreCategory, hc]
    rfl
  · simp only [restoreProduct, hp]
    rfl
  · simp only [restoreAdmin, hu]
  · intro r2 hmem hid
    unfold categoryRestoreRow at hmem
    obtain ⟨x, hxmem, hfx⟩ := List.mem_map.mp hmem
    subst hfx
    by_cases hx : x.id = c.id
    · simp [hx]
    · rw [if_neg hx] at hid ⊢
      exact absurd hid hx
  · intro r2 hmem hid
    unfold productRestoreRow at hmem
    obtain ⟨x, hxmem, hfx⟩ := List.mem_map.mp hmem
    subst hfx
    by_cases hx : x.id = p.id
    · simp [hx]
    · rw [if_neg hx] at hid ⊢
      exact absurd hid hx

/-- Witness for the amended C1: a never-deleted category, product and
admin are all restored with a success outcome. -/
theorem restore_reports_success_for_all_kinds_witness :
    activeCategoryRow.deletedAt = none ∧
    (sampleProduct 7).deletedAt = none ∧
    activeAdminRow.deletedAt = none ∧
    (restoreCategory [activeCategoryRow] activeCategoryRow.id 9).1 =
      .restored ∧
    (restoreProduct [sampleProduct 7] (sampleProduct 7).id 9).1 =
      .restored ∧
    (restoreAdmin [activeAdminRow] [activeProfileRow] activeAdminRow.id
      9).1 = .restored := by
  have h := restore_reports_success_for_all_kinds
    [activeCategoryRow] activeCategoryRow
    [sampleProduct 7] (sampleProduct 7)
    [activeAdminRow] [activeProfileRow] activeAdminRow 9 rfl rfl rfl
  exact ⟨rfl, rfl, rfl, by rw [h.1], by rw [h.2.1], h.2.2.1⟩

/-- The slug createProduct stores (product controller lines 8 to 21
followed by the Product model assembly): the controller derives a slug
when the body has a name but no truthy slug, then the model setter and
beforeValidate hook run. -/
def productStoredSlug (name : String) (slugOpt : Option String) : String :=
  modelSlug name (controllerSlugPrep (some name) slugOpt)

/-- C5: for a create or update payload that supplies a name but no slug,
the stored slug is slugify(name), both on the model-only path used by
createCategory (`modelSlug`) and on the controller paths of
createProduct, updateProduct and updateCategory (`productStoredSlug`,
which composes `controllerSlugPrep` with the model assembly); an
explicit slug matching ^[a-z0-9-]+$ is stored verbatim on both paths and
is never overwritten by derivation. The name is assumed to have a
nonempty slugification (an all-punctuation name fails the notEmpty slug
validation instead of storing anything). -/
theorem slug_derivation_policy (name s : String)
    (hn : slugify name ≠ "") (hs : isSlugStr s = true) :
    modelSlug name none = slugify name ∧
    productStoredSlug name none = slugify name ∧
    modelSlug name (some s) = s ∧
    productStoredSlug name (some s) = s := by
  have hne : ¬(name = "") := by
    intro h
    exact hn (by rw [h]; rfl)
  have hs0 : ¬(s = "") := by
    intro h
    rw [h] at hs
    exact absurd hs (by decide)
  have h1 : modelSlug name none = slugify name := by
    simp [modelSlug, hn, jsToLower_slugify]
  have h3 : modelSlug name (some s) = s := by
    simp [modelSlug, hs0, jsToLower_of_isSlugStr hs]
  refine ⟨h1, ?_, h3, ?_⟩
  · simp [productStoredSlug, controllerSlugPrep, hne, jsFalsy]
    simp [modelSlug, hn, jsToLower_slugify]
  · simp [productStoredSlug, controllerSlugPrep, hne, jsFalsy, hs0]
    exact h3

/-- Witness for C5 at the spec example name "Fresh Vegetables" (whose
slugification is "fresh-vegetables") and the explicit slug
"premium-deal-2". -/
theorem slug_derivation_policy_witness :
    modelSlug "Fresh Vegetables" none = slugify "Fresh Vegetables" ∧
    productStoredSlug "Fresh Vegetables" none = slugify "Fresh Vegetables" ∧
    modelSlug "Fresh Vegetables" (some "premium-deal-2") = "premium-deal-2" ∧
    productStoredSlug "Fresh Vegetables" (some "premium-deal-2") =
      "premium-deal-2" :=
  slug_derivation_policy "Fresh Vegetables" "premium-deal-2"
    (by decide) (by decide)

theorem categoryRec_clear_deletedAt (c : CategoryRec) (h : c.deletedAt = none)
    (t : Nat) :
    ({ c with deletedAt := none, updatedAt := t } : CategoryRec) =
      { c with updatedAt := t } := by
  cases c
  simp_all

theorem productRec_clear_deletedAt (p : ProductRec) (h : p.deletedAt = none)
    (t : Nat) :
    ({ p with deletedAt := none, updatedAt := t } : ProductRec) =
      { p with updatedAt := t } := by
  cases p
  simp_all

/-- C7: soft-deleting a visible category and then restoring it yields a
store equal to the original on every row and every field except the
updatedAt of the affected row, which is refreshed to the restore time; in
particular deletedAt is null again and no other field is modified by the
pair. The same holds for products. -/
theorem delete_restore_roundtrip
    (cst : CategoryStore) (c : CategoryRec) (t1 t2 : Nat)
    (hmem : c ∈ cst) (hact : c.isActive = true) (hdel : c.deletedAt = none)
    (huniq : ∀ x ∈ cst, x.id = c.id → x = c)
    (pst : ProductStore) (p : ProductRec)
    (hpmem : p ∈ pst) (hpact : p.isActive = true) (hpdel : p.deletedAt = none)
    (hpuniq : ∀ x ∈ pst, x.id = p.id → x = p) :
    (deleteCategory cst c.id t1).1 = .deleted ∧
    restoreCategory (deleteCategory cst c.id t1).2 c.id t2 =
      (.restored,
        cst.map fun x => if x.id = c.id then { x with updatedAt := t2 } else x) ∧
    (deleteProduct pst p.id t1).1 = .deleted ∧
    restoreProduct (deleteProduct pst p.id t1).2 p.id t2 =
      (.restored,
        pst.map fun x => if x.id = p.id then { x with updatedAt := t2 } else x) := by
  have h1 : (categoryFindOne cst true fun r => r.id == c.id).isSome := by
    unfold categoryFindOne
    rw [List.find?_isSome]
    exact ⟨c, hmem, by simp [hact, hdel]⟩
  obtain ⟨y, hy⟩ := Option.isSome_iff_exists.mp h1
  have hdelc : deleteCategory cst c.id t1 =
      (.deleted, categoryDestroyRow cst c.id t1) := by
    simp only [deleteCategory, hy]
  have h2 : ∀ z, categoryFindOne (categoryDestroyRow cst c.id t1) false
      (fun r => r.id == c.id) = some z →
      z = { c with deletedAt := some t1, updatedAt := t1 } := by
    intro z hz
    unfold categoryFindOne at hz
    have hzmem := List.mem_of_find?_eq_some hz
    have hzp := List.find?_some hz
    unfold categoryDestroyRow at hzmem
    obtain ⟨x, hxmem, hfx⟩ := List.mem_map.mp hzmem
    simp only [Bool.and_eq_true, beq_iff_eq] at hzp
    by_cases hx : x.id = c.id
    · have hxc : x = c := huniq x hxmem hx
      rw [if_pos hx, hxc] at hfx
      exact hfx.symm
    · rw [if_neg hx] at hfx
      rw [hfx] at hx
      exact absurd hzp.2 hx
  have h3 : (categoryFindOne (categoryDestroyRow cst c.id t1) false
      fun r => r.id == c.id).isSome := by
    unfold categoryFindOne
    rw [List.find?_isSome]
    refine ⟨{ c with deletedAt := some t1, updatedAt := t1 }, ?_, by simp [hact]⟩
    unfold categoryDestroyRow
    rw [List.mem_map]
    exact ⟨c, hmem, by simp⟩
  obtain ⟨z, hz⟩ := Option.isSome_iff_exists.mp h3
  have hzc := h2 z hz
  have hrest : restoreCategory (categoryDestroyRow cst c.id t1) c.id t2 =
      (.restored, categoryRestoreRow (categoryDestroyRow cst c.id t1) c.id t2) := by
    simp only [restoreCategory, hz, hzc]
    rfl
  have hstore : categoryRestoreRow (categoryDestroyRow cst c.id t1) c.id t2 =
      cst.map fun x => if x.id = c.id then { x with updatedAt := t2 } else x := by
    unfold categoryRestoreRow categoryDestroyRow
    rw [List.map_map]
    apply List.map_congr_left
    intro x hx
    by_cases hxid : x.id = c.id
    · have hxc : x = c := huniq x hx hxid
      simp only [Function.comp_apply, if_pos hxid]
      have hxd : x.deletedAt = none := by rw [hxc]; exact hdel
      rw [hxd]
    · simp only [Function.comp_apply, if_neg hxid]
  -- product side, same argument
  have g1 : (productFindOne pst true fun r => r.id == p.id).isSome := by
    unfold productFindOne
    rw [List.find?_isSome]
    exact ⟨p, hpmem, by simp [hpact, hpdel]⟩
  obtain ⟨y2, hy2⟩ := Option.isSome_iff_exists.mp g1
  have hdelp : deleteProduct pst p.id t1 =
      (.deleted, productDestroyRow pst p.id t1) := by
    simp only [deleteProduct, hy2]
  have g2 : ∀ z, productFindOne (productDestroyRow pst p.id t1) false
      (fun r => r.id == p.id) = some z →
      z = { p with deletedAt := some t1, updatedAt := t1 } := by
    intro z hz2
    unfold productFindOne at hz2
    have hzmem := List.mem_of_find?_eq_some hz2
    have hzp := List.find?_some hz2
    unfold productDestroyRow at hzmem
    obtain ⟨x, hxmem, hfx⟩ := List.mem_map.mp hzmem
    simp only [Bool.and_eq_true, beq_iff_eq] at hzp
    by_cases hx : x.id = p.id
    · have hxc : x = p := hpuniq x hxmem hx
      rw [if_pos hx, hxc] at hfx
      exact hfx.symm
    · rw [if_neg hx] at hfx
      rw [hfx] at hx
      exact absurd hzp.2 hx
  have g3 : (productFindOne (productDestroyRow pst p.id t1) false
      fun r => r.id == p.id).isSome := by
    unfold productFindOne
    rw [List.find?_isSome]
    refine ⟨{ p with deletedAt := some t1, updatedAt := t1 }, ?_, by simp [hpact]⟩
    unfold productDestroyRow
    rw [List.mem_map]
    exact ⟨p, hpmem, by simp⟩
  obtain ⟨z2, hz2⟩ := Option.isSome_iff_exists.mp g3
  have hzp2 := g2 z2 hz2
  have hrestp : restoreProduct (productDestroyRow pst p.id t1) p.id t2 =
      (.restored, productRestoreRow (productDestroyRow pst p.id t1) p.id t2) := by
    simp only [restoreProduct, hz2, hzp2]
    rfl
  have hstorep : productRestoreRow (productDestroyRow pst p.id t1) p.id t2 =
      pst.map fun x => if x.id = p.id then { x with updatedAt := t2 } else x := by
    unfold productRestoreRow productDestroyRow
    rw [List.map_map]
    apply List.map_congr_left
    intro x hx
    by_cases hxid : x.id = p.id
    · have hxc : x = p := hpuniq x hx hxid
      simp only [Function.comp_apply, if_pos hxid]
      have hxd : x.deletedAt = none := by rw [hxc]; exact hpdel
      rw [hxd]
    · simp only [Function.comp_apply, if_neg hxid]
  refine ⟨by rw [hdelc], ?_, by rw [hdelp], ?_⟩
  · rw [hdelc]
    rw [hrest, hstore]
  · rw [hdelp]
    rw [hrestp, hstorep]

/-- Witness for C7: a concrete one-row category store and one-row product
store, deleted at time 3 and restored at time 8. -/
theorem delete_restore_roundtrip_witness :
    (deleteCategory [{ deletedCategoryRow with deletedAt := none }] 1 3).1 =
      .deleted ∧
    restoreCategory
        (deleteCategory [{ deletedCategoryRow with deletedAt := none }] 1 3).2
        1 8 =
      (.restored,
        [{ deletedCategoryRow with deletedAt := none, updatedAt := 8 }]) ∧
    (deleteProduct [{ deletedProductRow with deletedAt := none }] 1 3).1 =
      .deleted ∧
    restoreProduct
        (deleteProduct [{ deletedProductRow with deletedAt := none }] 1 3).2
        1 8 =
      (.restored,
        [{ deletedProductRow with deletedAt := none, updatedAt := 8 }]) := by
  have h := delete_restore_roundtrip
    [{ deletedCategoryRow with deletedAt := none }]
    { deletedCategoryRow with deletedAt := none } 3 8
    (by simp) rfl rfl
    (by intro x hx _; simpa using hx)
    [{ deletedProductRow with deletedAt := none }]
    { deletedProductRow with deletedAt := none }
    (by simp) rfl rfl
    (by intro x hx _; simpa using hx)
  exact h

theorem userToJSON_no_password (u : UserRec) :
    ∀ kv ∈ userToJSON u, kv.1 ≠ "password" := by
  intro kv hkv
  unfold userToJSON at hkv
  have := List.of_mem_filter hkv
  simpa using this

/-- C9: no admin endpoint response contains the password field: toJSON
itself strips it, and the create, detail, list and update responses all
serialize user data through it. -/
theorem password_never_serialized (u : UserRec) (ust : UserStore)
    (pst : ProfileStore) (p : AdminCreatePayload) (q : AdminListQuery)
    (up : AdminUpdatePayload) (id n1 n2 now : Nat) :
    (∀ kv ∈ userToJSON u, kv.1 ≠ "password") ∧
    (∀ kv ∈ (createAdmin ust pst p n1 n2 now).userJson, kv.1 ≠ "password") ∧
    (∀ kv ∈ (getAdminById ust id).userJson, kv.1 ≠ "password") ∧
    (∀ row ∈ getAllAdminsJson ust q, ∀ kv ∈ row, kv.1 ≠ "password") ∧
    (∀ kv ∈ (updateAdmin ust pst id up now).userJson, kv.1 ≠ "password") := by
  refine ⟨userToJSON_no_password u, ?_, ?_, ?_, ?_⟩
  · unfold createAdmin
    split
    · simp
    · split
      · simp
      · exact userToJSON_no_password _
  · unfold getAdminById
    split
    · simp
    · exact userToJSON_no_password _
  · intro row hrow
    unfold getAllAdminsJson at hrow
    obtain ⟨u2, _, hfu⟩ := List.mem_map.mp hrow
    rw [← hfu]
    exact userToJSON_no_password u2
  · have hcases : (updateAdmin ust pst id up now).userJson = [] ∨
        ∃ u2, (updateAdmin ust pst id up now).userJson = userToJSON u2 := by
      unfold updateAdmin
      split
      · left; rfl
      · dsimp only
        split
        · left; rfl
        · split
          · left; rfl
          · dsimp only
            split
            · right; exact ⟨_, rfl⟩
            · left; rfl
    rcases hcases with h | ⟨u2, h⟩
    · rw [h]
      simp
    · rw [h]
      exact userToJSON_no_password u2

/-- C10: the admin update writes the User row only when the payload has a
truthy email or password; a payload with neither (for example isActive
alone) leaves the users table untouched, while the attached profile row
is still updated from the same payload when the operation succeeds. -/
theorem updateAdmin_writes_user_only_for_email_or_password
    (ust : UserStore) (pst : ProfileStore) (id : Nat)
    (p : AdminUpdatePayload) (now : Nat)
    (hemail : p.email = none) (hpw : p.password = none) :
    (updateAdmin ust pst id p now).users = ust ∧
    ((updateAdmin ust pst id p now).status = 200 →
      (updateAdmin ust pst id p now).profiles =
        pst.map fun pr =>
          if pr.userId = id && pr.deletedAt == none then
            applyProfileUpdate pr p now
          else pr) := by
  cases hfind : userFindOne ust true
      (fun u => u.id == id && u.accountType == AccountType.admin) with
  | none =>
    constructor
    · show (updateAdmin ust pst id p now).users = ust
      unfold updateAdmin
      rw [hfind]
    · intro h
      unfold updateAdmin at h
      rw [hfind] at h
      simp at h
  | some admin =>
    unfold updateAdmin
    rw [hfind]
    simp only [hemail, hpw]
    simp [jsFalsy]

/-- Witness for C10: an isActive-only payload against a one-admin store
leaves the user row unchanged while the profile row is updated. -/
theorem updateAdmin_user_frame_witness :
    (updateAdmin [activeAdminRow] [activeProfileRow] 1
      { AdminUpdatePayload.empty with isActive := some false } 7).users =
      [activeAdminRow] ∧
    (updateAdmin [activeAdminRow] [activeProfileRow] 1
      { AdminUpdatePayload.empty with isActive := some false } 7).status = 200 :=
  ⟨(updateAdmin_writes_user_only_for_email_or_password
      [activeAdminRow] [activeProfileRow] 1
      { AdminUpdatePayload.empty with isActive := some false } 7 rfl rfl).1,
   rfl⟩

/-- C4 (code bug evaluation): with a visible (active, non-deleted)
category named "Phones" (slug "phones") in the table, creating another
category named "Phones" with the distinct explicit slug "phones-two"
succeeds with a 201-class ok outcome and inserts the row — even though
the validator name check records the conflict — because
handleValidationErrors is mounted before the validator chains and the
recorded errors are never consulted, and the categories table has no
unique index on name. Duplicate names are rejected only indirectly,
through the unique slug index (the no-explicit-slug duplicate below),
and updating the category to its own current name succeeds. -/
theorem createCategory_visible_duplicate_name_created :
    categoryNameTaken [activeCategoryRow] "Phones" none = true ∧
    activeCategoryRow.name = "Phones" ∧
    activeCategoryRow.deletedAt = none ∧
    activeCategoryRow.isActive = true ∧
    (createCategoryOp [activeCategoryRow]
      { name := some "Phones", slug := some "phones-two",
        description := none, isActive := none } 2 9).1 = .ok ∧
    (createCategoryOp [activeCategoryRow]
      { name := some "Phones", slug := none, description := none,
        isActive := none } 2 9).1 =
      .conflict "This slug is already in use" ∧
    (updateCategoryOp [activeCategoryRow] 1
      { name := some "Phones", slug := none, description := none,
        isActive := none } 9).1 = .ok :=
  ⟨rfl, rfl, rfl, rfl, rfl, rfl, rfl⟩

/-- A live customer account holding the contested email. -/
def customerRow : UserRec :=
  { id := 1, email := "shared@mail.com", password := "bcrypt12$x",
    accountType := .customer, authProvider := "local", isActive := true,
    lastPasswordChange := none, createdAt := 0, updatedAt := 0,
    deletedAt := none }

/-- A live admin account with a different email. -/
def secondAdminRow : UserRec :=
  { id := 2, email := "boss@mail.com", password := "bcrypt12$y",
    accountType := .admin, authProvider := "local", isActive := true,
    lastPasswordChange := none, createdAt := 0, updatedAt := 0,
    deletedAt := none }

/-- An admin create body reusing the customer email. -/
def adminBodyWithCustomerEmail : AdminCreatePayload :=
  { email := "shared@mail.com", password := "Secret1$pw", firstName := "Ann",
    lastName := "Lee", phoneNumber := none, address := none, city := none,
    bio := none }

/-- C8 counterexample: the validator-level check is admin-scoped and
passes for an email held only by a customer, but creating an admin with
that email still fails: the createAdmin controller pre-checks the email
against every live account with an unscoped findOne and rejects with
400, leaving the stores unchanged — contradicting the claim that such a
create does not fail the uniqueness check. -/
theorem createAdmin_rejects_customer_held_email :
    adminEmailAvailable [customerRow] "shared@mail.com" none = true ∧
    customerRow.accountType = .customer ∧
    (createAdmin [customerRow] [] adminBodyWithCustomerEmail 2 1 9).status = 400 ∧
    (createAdmin [customerRow] [] adminBodyWithCustomerEmail 2 1 9).success = false ∧
    (createAdmin [customerRow] [] adminBodyWithCustomerEmail 2 1 9).users =
      [customerRow] :=
  ⟨rfl, rfl, rfl, rfl, rfl⟩

/-- C8 amended: the email uniqueness check of the admin validator and the
explicit check inside updateAdmin consider only accountType admin users,
so an email held only by customers passes both; but the createAdmin
controller additionally rejects any live account holding the email
(unscoped findOne), and the global unique email index of the users table
rejects an update that would move an admin onto a customer-held email,
so both operations still fail with a 400 outcome and unchanged stores. -/
theorem admin_email_uniqueness_scoping
    (ust : UserStore) (pst : ProfileStore) (em : String) (idOpt : Option Nat)
    (p : AdminCreatePayload) (a : UserRec) (up : AdminUpdatePayload)
    (n1 n2 now : Nat)
    (hcust : ∀ u ∈ ust, u.email = em → u.accountType = .customer) :
    (adminEmailAvailable ust em idOpt = true) ∧
    ((∃ u ∈ ust, u.deletedAt = none ∧ u.email = p.email) →
      createAdmin ust pst p n1 n2 now =
        { status := 400, success := false, userJson := [], users := ust,
          profiles := pst }) ∧
    (userFindOne ust true
        (fun u => u.id == a.id && u.accountType == AccountType.admin) =
          some a →
      up.email = some em → ¬(em = "") → ¬(em = a.email) →
      (∃ u ∈ ust, ¬(u.id = a.id) ∧ u.email = em) →
      updateAdmin ust pst a.id up now =
        { status := 400, success := false, userJson := [], users := ust,
          profiles := pst }) := by
  refine ⟨?_, ?_, ?_⟩
  · have hnone : (userFindOne ust true fun u =>
        u.email == em && u.accountType == AccountType.admin &&
          !(u.id == idOpt.getD 0)) = none := by
      unfold userFindOne
      rw [List.find?_eq_none]
      intro u hu hpred
      rcases (Bool.and_eq_true _ _).mp hpred with ⟨_, h2⟩
      rcases (Bool.and_eq_true _ _).mp h2 with ⟨h3, _⟩
      rcases (Bool.and_eq_true _ _).mp h3 with ⟨ha, hb⟩
      have hc2 := hcust u hu (beq_iff_eq.mp ha)
      rw [hc2] at hb
      exact absurd hb (by decide)
    unfold adminEmailAvailable
    rw [hnone]
    rfl
  · rintro ⟨u, hu, hudel, huem⟩
    have hfind : (userFindOne ust true fun x => x.email == p.email).isSome := by
      unfold userFindOne
      rw [List.find?_isSome]
      exact ⟨u, hu, by simp [hudel, huem]⟩
    obtain ⟨y, hy⟩ := Option.isSome_iff_exists.mp hfind
    unfold createAdmin
    rw [hy]
  · intro hfa hupe hene henea hex2
    have hnone2 : (userFindOne ust true fun u =>
        u.email == em && u.accountType == AccountType.admin &&
          !(u.id == a.id)) = none := by
      unfold userFindOne
      rw [List.find?_eq_none]
      intro u hu hpred
      rcases (Bool.and_eq_true _ _).mp hpred with ⟨_, h2⟩
      rcases (Bool.and_eq_true _ _).mp h2 with ⟨h3, _⟩
      rcases (Bool.and_eq_true _ _).mp h3 with ⟨ha, hb⟩
      have hc2 := hcust u hu (beq_iff_eq.mp ha)
      rw [hc2] at hb
      exact absurd hb (by decide)
    have hany : (ust.any fun u => !(u.id == a.id) && u.email == em) = true := by
      rw [List.any_eq_true]
      obtain ⟨u, hu, huid, huem⟩ := hex2
      exact ⟨u, hu, by simp [huid, huem]⟩
    unfold updateAdmin
    rw [hfa]
    dsimp only
    rw [hupe]
    dsimp only
    rw [hnone2]
    simp only [hene, henea, Option.isSome_none, decide_eq_true_eq,
      decide_eq_false_iff_not, Bool.and_false, if_false]
    rw [if_neg (by simp [hene, henea])]
    simp only [jsFalsy, hene, decide_eq_false_iff_not]
    rw [if_pos (by simp [hany, jsFalsy, hene])]

/-- Witness for the amended C8: with a customer holding the email and a
second live admin, the scoped validator check passes while both the
create and the email update are rejected with 400. -/
theorem admin_email_uniqueness_scoping_witness :
    adminEmailAvailable [customerRow, secondAdminRow] "shared@mail.com"
      none = true ∧
    (createAdmin [customerRow, secondAdminRow] []
      adminBodyWithCustomerEmail 3 2 9).status = 400 ∧
    (updateAdmin [customerRow, secondAdminRow] [] secondAdminRow.id
      { AdminUpdatePayload.empty with email := some "shared@mail.com" }
      9).status = 400 := by
  have h := admin_email_uniqueness_scoping [customerRow, secondAdminRow] []
    "shared@mail.com" none adminBodyWithCustomerEmail secondAdminRow
    { AdminUpdatePayload.empty with email := some "shared@mail.com" }
    3 2 9 (by decide)
  refine ⟨h.1, ?_, ?_⟩
  · rw [h.2.1 ⟨customerRow, by simp, rfl, rfl⟩]
  · rw [h.2.2 rfl rfl (by decide) (by decide)
      ⟨customerRow, by simp, by decide, rfl⟩]
